/-
Verification of the grok-image-edit plugin core (main.py) against its
natural-language specification.

The Python source is shallowly embedded: each `def` below mirrors one
function (or a self-contained fragment of one) of `main.py`, keeping the
source's names, branch structure and message strings.  Machine state that
Python keeps in `self` (rate-limit buckets, the pending-task dict) is passed
explicitly.  Values that the runtime environment produces (HTTP responses,
clock readings, the platform event) are parameters of the embedded
functions.
-/
import Mathlib

namespace GrokImageEdit

/-! ## Rate limiter / access gate (`_check_group_access`, main.py lines 104-146)

`self._rate_limit_bucket[group_id]` is a dict `{"window_start": float, "count": int}`;
we embed it as `RateBucket` and pass the stored bucket (or `none` when the
scope has no bucket yet) explicitly.  `time.time()` is embedded as an `Int`
parameter `now`. -/

structure RateBucket where
  window_start : Int
  count : Nat
  deriving DecidableEq, Repr

structure RateCfg where
  window_seconds : Int
  max_calls : Nat
  deriving DecidableEq, Repr

/-- The denial text of main.py lines 134-137:
`f"本群调用已达上限（{max}次/{window}秒），请稍后再试"`. -/
def rateDenyMsg (cfg : RateCfg) : String :=
  "本群调用已达上限（" ++ toString cfg.max_calls ++ "次/"
    ++ toString cfg.window_seconds ++ "秒），请稍后再试"

/-- The rate-limiting read-modify-write of main.py lines 123-140, performed
under the per-scope lock.  Returns the optional denial message and the new
stored bucket.  On denial the code returns before the write-back, so the
stored bucket is unchanged. -/
def checkRateLimit (cfg : RateCfg) (now : Int) (stored : Option RateBucket) :
    Option String × Option RateBucket :=
  let bucket := stored.getD { window_start := now, count := 0 }
  let expired := cfg.window_seconds ≤ now - bucket.window_start
  let window_start := if expired then now else bucket.window_start
  let count := if expired then 0 else bucket.count
  if cfg.max_calls ≤ count then
    (some (rateDenyMsg cfg), stored)
  else
    (none, some { window_start := window_start, count := count + 1 })

/-- A sequence of rate-limit checks for one scope, one per timestamp in the
list, threading the stored bucket (the per-scope lock of main.py serializes
these checks). -/
def rateRunTimes (cfg : RateCfg) (stored : Option RateBucket) :
    List Int → List (Option String) × Option RateBucket
  | [] => ([], stored)
  | t :: ts =>
    let step := checkRateLimit cfg t stored
    let rest := rateRunTimes cfg step.2 ts
    (step.1 :: rest.1, rest.2)

/-! ## Group access check (`_check_group_access`, full body) -/

inductive GroupMode
  | off | whitelist | blacklist
  deriving DecidableEq, Repr

structure AccessCfg where
  group_control_mode : GroupMode
  group_list : List String
  rate_limit_enabled : Bool
  rate : RateCfg
  deriving DecidableEq, Repr

def whitelistDenyMsg : String := "当前群组未被授权使用图片编辑功能"

def blacklistDenyMsg : String := "当前群组已被限制使用图片编辑功能"

/-- Body of `_check_group_access` (main.py lines 107-140): the group-mode
checks and, when enabled, the rate-limit check.  `group_id = none` embeds a
private chat (or `get_group_id` raising, which the inner `try` of lines
108-111 converts to `None`). -/
def checkGroupAccessBody (cfg : AccessCfg) (group_id : Option String) (now : Int)
    (stored : Option RateBucket) : Option String × Option RateBucket :=
  match group_id with
  | none => (none, stored)
  | some g =>
    if cfg.group_control_mode = GroupMode.whitelist ∧ g ∉ cfg.group_list then
      (some whitelistDenyMsg, stored)
    else if cfg.group_control_mode = GroupMode.blacklist ∧ g ∈ cfg.group_list then
      (some blacklistDenyMsg, stored)
    else if cfg.rate_limit_enabled then
      checkRateLimit cfg.rate now stored
    else
      (none, stored)

/-- `_check_group_access` with its outer `try/except` (main.py lines 106,
142-146).  `fault = some e` embeds an unexpected exception raised while
evaluating the body: the `except Exception` handler logs it and returns
`None`, i.e. no denial (fail open).  `fault = none` is the normal path. -/
def checkGroupAccess (cfg : AccessCfg) (group_id : Option String) (now : Int)
    (stored : Option RateBucket) (fault : Option String) :
    Option String × Option RateBucket :=
  match fault with
  | some _ => (none, stored)
  | none => checkGroupAccessBody cfg group_id now stored

/-! ## Pending-task map (`cmd_edit_image` lines 793-829, `_async_edit_image`
lines 788-791)

`self._processing_tasks` is a dict from user id to task id; we embed it as an
association list in which each key occurs at most once (inserting removes any
previous binding, as dict assignment does). -/

def TaskMap : Type := List (String × String)

def lookupTask (m : TaskMap) (u : String) : Option String :=
  (m.find? (fun p => p.1 == u)).map (fun p => p.2)

def removeTask (m : TaskMap) (u : String) : TaskMap :=
  m.filter (fun p => ! (p.1 == u))

def insertTask (m : TaskMap) (u t : String) : TaskMap :=
  (u, t) :: removeTask m u

/-- Number of pending-task entries a user holds in the map. -/
def pendingCount (m : TaskMap) (u : String) : Nat :=
  (m.filter (fun p => p.1 == u)).length

def busyMsg : String := "⚠️ 您已有一个图片编辑任务在进行中，请等待完成后再试。"

def noImageMsg : String := "❌ 图片编辑需要您在消息中包含图片或引用包含图片的消息。"

/-- The guard-and-record flow of `cmd_edit_image` (main.py lines 796-825):
access-denial reply, busy-rejection, image-extraction failure replies, or
acceptance (recording the task token).  The access-check result and the
extraction result are parameters, pre-evaluated by their own embedded
functions.  Returns the immediate reply (none = accepted, task started) and
the new task map. -/
def cmdEditImage (m : TaskMap) (access_error : Option String)
    (images : List String) (extract_error : Option String)
    (user_id task_id : String) : Option String × TaskMap :=
  match access_error with
  | some e => (some e, m)
  | none =>
    if (lookupTask m user_id).isSome then (some busyMsg, m)
    else
      match extract_error with
      | some e => (some ("❌ " ++ e), m)
      | none =>
        if images.isEmpty then (some noImageMsg, m)
        else (none, insertTask m user_id task_id)

/-- How the asynchronous edit body terminated.  The `finally` clause of
`_async_edit_image` runs on all three paths. -/
inductive EditOutcome
  | success
  | handledError (msg : String)
  | unhandledExc (msg : String)
  deriving DecidableEq, Repr

/-- The `finally` clause of `_async_edit_image` (main.py lines 788-791): on
every exit path, if the user's recorded token is this task's id, the entry is
deleted.  The outcome parameter is deliberately unused: `finally` runs the
same way on success, handled error and unhandled exception. -/
def asyncEditFinish (m : TaskMap) (user_id task_id : String)
    (_outcome : EditOutcome) : TaskMap :=
  if lookupTask m user_id = some task_id then removeTask m user_id else m

/-! ## URL validation (`_is_valid_image_url`, main.py lines 596-607)

The regular-expression search `\.(png|jpg|jpeg|webp|gif)(?:$|[?&#])` (ignore
case) is embedded as a character-level scan: at some position a dot is
followed by one of the extensions (case-insensitively) and then either the
end of the string or one of the characters `?`, `&`, `#`.  Since no listed
extension is a prefix of another, existence over positions and alternatives
coincides with the backtracking search. -/

def INVALID_URL_CHARS : List Char := ['<', '>', '"', '\'', '\n', '\r', '\t']

/-- Case-insensitive literal match: if the (lower-case) pattern is a prefix of
the input up to `Char.toLower`, return the remainder. -/
def matchCI : List Char → List Char → Option (List Char)
  | [], cs => some cs
  | _ :: _, [] => none
  | p :: ps, c :: cs => if c.toLower = p then matchCI ps cs else none

/-- The extension alternation of `_is_valid_image_url`'s search, in source
order: `png|jpg|jpeg|webp|gif`. -/
def SEARCH_EXTS : List (List Char) :=
  [['p', 'n', 'g'], ['j', 'p', 'g'], ['j', 'p', 'e', 'g'],
   ['w', 'e', 'b', 'p'], ['g', 'i', 'f']]

/-- The `(?:$|[?&#])` boundary after the extension. -/
def extBoundary : List Char → Bool
  | [] => true
  | c :: _ => c == '?' || c == '&' || c == '#'

/-- Does `\.(ext)(?:$|[?&#])` match exactly at the head of `cs`? -/
def extMatchAt (cs : List Char) : Bool :=
  match cs with
  | '.' :: rest =>
    SEARCH_EXTS.any (fun ext =>
      match matchCI ext rest with
      | some rem => extBoundary rem
      | none => false)
  | _ => false

/-- `re.search` of the extension pattern: does it match at any position? -/
def hasImageExtension : List Char → Bool
  | [] => false
  | c :: cs => extMatchAt (c :: cs) || hasImageExtension cs

/-- `_is_valid_image_url` (main.py lines 596-607).  Python's
`url.startswith(("http://", "https://"))` is embedded as a character-level
prefix test. -/
def isValidImageUrl (url : String) (require_extension : Bool) : Bool :=
  if url.length < 10 then false
  else if ! ("http://".data.isPrefixOf url.data || "https://".data.isPrefixOf url.data) then
    false
  else if require_extension && ! hasImageExtension url.data then false
  else if INVALID_URL_CHARS.any (fun c => url.data.contains c) then false
  else true

/-! ## Text extraction (`_extract_image_urls_from_text` lines 564-588,
`_extract_data_urls_from_text` lines 590-594)

The `re.findall` scans are embedded as left-to-right character scanners.  A
fuel argument (initially the text length, strictly decreasing) makes the
recursion structural; every successful match consumes at least one character,
so the fuel never runs out on real inputs. -/

/-- Characters of the class `[A-Za-z0-9+/=]` (the base64 body). -/
def isBase64Char (c : Char) : Bool :=
  c.isAlpha || c.isDigit || c == '+' || c == '/' || c == '='

/-- Extension alternation of the data-URI pattern, in source order:
`png|jpeg|jpg|webp|gif`. -/
def DATA_URL_EXTS : List (List Char) :=
  [['p', 'n', 'g'], ['j', 'p', 'e', 'g'], ['j', 'p', 'g'],
   ['w', 'e', 'b', 'p'], ['g', 'i', 'f']]

/-- Try each extension alternative; the first whose continuation also matches
wins (regex alternation with backtracking into the continuation). -/
def matchExtSeq (exts : List (List Char)) (tail : List Char → Option (List Char))
    (cs : List Char) : Option (List Char) :=
  match exts with
  | [] => none
  | e :: es =>
    match matchCI e cs with
    | some rem =>
      match tail rem with
      | some rem2 => some rem2
      | none => matchExtSeq es tail cs
    | none => matchExtSeq es tail cs

/-- Greedy `[A-Za-z0-9+/=]+`: one or more base64 characters. -/
def matchBase64Run (cs : List Char) : Option (List Char) :=
  let run := cs.takeWhile isBase64Char
  if run.isEmpty then none else some (cs.drop run.length)

/-- Match of `data:image/(?:png|jpeg|jpg|webp|gif);base64,[A-Za-z0-9+/=]+`
(ignore case) exactly at the head of `cs`; returns the number of characters
consumed. -/
def matchDataUrlAt (cs : List Char) : Option Nat :=
  match matchCI "data:image/".data cs with
  | none => none
  | some r1 =>
    match matchExtSeq DATA_URL_EXTS
        (fun r =>
          match matchCI ";base64,".data r with
          | none => none
          | some r2 => matchBase64Run r2) r1 with
    | none => none
    | some rem => some (cs.length - rem.length)

def scanDataUrlsAux : Nat → List Char → List String
  | 0, _ => []
  | _, [] => []
  | fuel + 1, c :: cs =>
    match matchDataUrlAt (c :: cs) with
    | some n =>
      -- `max n 1` only enforces progress; a successful match consumes ≥ 20 chars.
      String.mk ((c :: cs).take n) :: scanDataUrlsAux fuel ((c :: cs).drop (max n 1))
    | none => scanDataUrlsAux fuel cs

/-- `_extract_data_urls_from_text`'s `re.findall` over the text. -/
def scanDataUrls (cs : List Char) : List String := scanDataUrlsAux cs.length cs

/-- `_extract_data_urls_from_text` (main.py lines 590-594). -/
def extractDataUrlsFromText (content : String) : List String :=
  if content.isEmpty then [] else scanDataUrls content.data

def isQuote (c : Char) : Bool := c == '"' || c == '\''

/-- Scan for `src=` (ignore case) without crossing a `>` — the `[^>]*src=`
portion of the HTML pattern. -/
def findSrcEq : List Char → Option (List Char)
  | [] => none
  | c :: cs =>
    if c == '>' then none
    else
      match matchCI "src=".data (c :: cs) with
      | some rem => some rem
      | none => findSrcEq cs

/-- The `[^>]*>` tail of the HTML pattern: skip to the first `>`. -/
def skipToGt : List Char → Option (List Char)
  | [] => none
  | c :: cs => if c == '>' then some cs else skipToGt cs

/-- Match of `<img[^>]*src=["\x27]([^"\x27]+)["\x27][^>]*>` (ignore case) at
the head of `cs`: returns the captured src value and the remainder after the
tag. -/
def matchHtmlImgAt (cs : List Char) : Option (List Char × List Char) :=
  match matchCI "<img".data cs with
  | none => none
  | some r1 =>
    match findSrcEq r1 with
    | none => none
    | some r2 =>
      match r2 with
      | [] => none
      | q :: r3 =>
        if isQuote q then
          let captured := r3.takeWhile (fun c => ! isQuote c)
          if captured.isEmpty then none
          else
            match r3.drop captured.length with
            | [] => none
            | _ :: r4 =>
              match skipToGt r4 with
              | some rem => some (captured, rem)
              | none => none
        else none

def scanHtmlImgsAux : Nat → List Char → List String
  | 0, _ => []
  | _, [] => []
  | fuel + 1, c :: cs =>
    match matchHtmlImgAt (c :: cs) with
    | some (url, rem) => String.mk url :: scanHtmlImgsAux fuel rem
    | none => scanHtmlImgsAux fuel cs

/-- The HTML-img `re.findall` of `_extract_image_urls_from_text`. -/
def scanHtmlImgs (cs : List Char) : List String := scanHtmlImgsAux cs.length cs

/-- Match of the Markdown pattern `!\[[^\]]*\]\(([^\)]+)\)` at the head of
`cs`: returns the captured target and the remainder. -/
def matchMdImgAt (cs : List Char) : Option (List Char × List Char) :=
  match cs with
  | '!' :: '[' :: r1 =>
    let alt := r1.takeWhile (fun c => ! (c == ']'))
    match r1.drop alt.length with
    | ']' :: '(' :: r2 =>
      let target := r2.takeWhile (fun c => ! (c == ')'))
      if target.isEmpty then none
      else
        match r2.drop target.length with
        | ')' :: r3 => some (target, r3)
        | _ => none
    | _ => none
  | _ => none

def scanMdImgsAux : Nat → List Char → List String
  | 0, _ => []
  | _, [] => []
  | fuel + 1, c :: cs =>
    match matchMdImgAt (c :: cs) with
    | some (url, rem) => String.mk url :: scanMdImgsAux fuel rem
    | none => scanMdImgsAux fuel cs

/-- The Markdown-image `re.findall` of `_extract_image_urls_from_text`. -/
def scanMdImgs (cs : List Char) : List String := scanMdImgsAux cs.length cs

/-- Character class `[^\s<>"\x27)\]\x7d]` of the direct-URL pattern. -/
def isUrlBodyChar (c : Char) : Bool :=
  ! (c.isWhitespace || c == '<' || c == '>' || c == '"' || c == '\''
    || c == ')' || c == ']' || c == '\x7d')

/-- Extension alternation of the direct-URL pattern, in source order:
`png|jpg|jpeg|webp|gif`. -/
def DIRECT_EXTS : List (List Char) :=
  [['p', 'n', 'g'], ['j', 'p', 'g'], ['j', 'p', 'e', 'g'],
   ['w', 'e', 'b', 'p'], ['g', 'i', 'f']]

/-- `https?://` (ignore case): `http`, an optional `s`, then `://`. -/
def matchSchemeAt (cs : List Char) : Option (List Char) :=
  match matchCI "http".data cs with
  | none => none
  | some r1 =>
    let r2 := match r1 with
      | c :: rest => if c.toLower = 's' then rest else r1
      | [] => r1
    matchCI "://".data r2

/-- If `cs` starts with a dot followed by one of the direct-URL extensions
(ignore case), the extension's length. -/
def extAtDot (cs : List Char) : Option Nat :=
  match cs with
  | '.' :: rest =>
    DIRECT_EXTS.foldl (fun acc ext =>
      match acc with
      | some l => some l
      | none =>
        match matchCI ext rest with
        | some _ => some ext.length
        | none => none) none
  | _ => none

/-- Rightmost position `i` in the run with `run[i] = '.'` followed by an
extension; returns `(i, extension length)`.  The greedy `[^…]+` of the
pattern backtracks from the right, so the rightmost dot-extension wins. -/
def lastExtSplit : List Char → Option (Nat × Nat)
  | [] => none
  | c :: cs =>
    match lastExtSplit cs with
    | some (i, l) => some (i + 1, l)
    | none =>
      match extAtDot (c :: cs) with
      | some l => some (0, l)
      | none => none

/-- Match of the direct-URL pattern
`https?://[^\s<>"\x27)\]\x7d]+\.(?:png|jpg|jpeg|webp|gif)(?:\?[^\s<>"\x27)\]\x7d]*)?`
(ignore case) at the head of `cs`; returns the number of characters consumed.
The greedy body takes the maximal run of class characters, ends at the
rightmost dot-extension inside it, and the optional query (whose `?` and body
are themselves class characters) then consumes the rest of the run. -/
def directMatchAt (cs : List Char) : Option Nat :=
  match matchSchemeAt cs with
  | none => none
  | some afterScheme =>
    let schemeLen := cs.length - afterScheme.length
    let run := afterScheme.takeWhile isUrlBodyChar
    match lastExtSplit run with
    | none => none
    | some (i, l) =>
      if i = 0 then none
      else
        let endPos := i + 1 + l
        let endPos2 :=
          match run.drop endPos with
          | '?' :: _ => run.length
          | _ => endPos
        some (schemeLen + endPos2)

def scanDirectUrlsAux : Nat → List Char → List String
  | 0, _ => []
  | _, [] => []
  | fuel + 1, c :: cs =>
    match directMatchAt (c :: cs) with
    | some n =>
      String.mk ((c :: cs).take n) :: scanDirectUrlsAux fuel ((c :: cs).drop (max n 1))
    | none => scanDirectUrlsAux fuel cs

/-- The direct-URL `re.findall` of `_extract_image_urls_from_text`. -/
def scanDirectUrls (cs : List Char) : List String := scanDirectUrlsAux cs.length cs

/-- `_extract_image_urls_from_text` (main.py lines 564-588): HTML img tags,
then Markdown images, then bare URLs with an image extension, each candidate
filtered through `_is_valid_image_url`. -/
def extractImageUrlsFromText (content : String) : List String :=
  if content.isEmpty then []
  else
    (scanHtmlImgs content.data).filter (fun u => isValidImageUrl u false)
      ++ (scanMdImgs content.data).filter (fun u => isValidImageUrl u false)
      ++ (scanDirectUrls content.data).filter (fun u => isValidImageUrl u true)

/-! ## Response model and `_extract_image_results` (main.py lines 473-562)

The upstream JSON body is embedded by the shapes `_extract_image_results`
probes.  `Option` encodes an absent field or one of the wrong runtime type
(every `isinstance` guard in the source silently skips such a value), and an
`Option` element inside a list encodes a non-dict list item, which the source
skips. -/

/-- An item of the top-level `data` list.  `url` is present iff the item's
`"url"` is a string; `b64_json` iff the item's `"b64_json"` is a string. -/
structure DataItem where
  url : Option String
  b64_json : Option String
  deriving DecidableEq, Repr

/-- A structured content part of the first choice's message.
`image_url_field = some u` embeds a dict-valued `"image_url"` field whose
`"url"` lookup yields `u`; `image_url_field = none` embeds a missing or
non-dict field.  `url` and `text` are the part's string-valued `"url"` and
`"text"` fields. -/
structure ContentPart where
  type : Option String
  image_url_field : Option (Option String)
  url : Option String
  text : Option String
  deriving DecidableEq, Repr

/-- The image URL an `image_url`-typed part yields (main.py lines 512-517):
the dict field's `"url"` when the field is a dict, else the part's own
string `"url"`. -/
def partImageUrl (p : ContentPart) : Option String :=
  match p.image_url_field with
  | some u => u
  | none => p.url

/-- The first choice's `message.content`: a structured list, a plain string,
or anything else (ignored by the source). -/
inductive MsgContent
  | parts (l : List (Option ContentPart))
  | text (s : String)
  | other
  deriving DecidableEq, Repr

/-- The first choice's message.  The four attachment-like lists hold
`some url` for a dict item with a string `"url"` and `none` for any other
item; a missing or non-list field is the empty list. -/
structure Message where
  content : MsgContent
  attachments : List (Option String)
  media : List (Option String)
  files : List (Option String)
  images : List (Option String)
  deriving DecidableEq, Repr

/-- The parsed 200-response body.  `data` is present iff the top-level
`"data"` is a list; `choiceMessage` is the first element's message when
`"choices"` is a non-empty list whose head is a dict.  `errorF` and
`messageF` are the rendered `"error"` / `"message"` fields used by the
non-200 handler of `_call_grok_api`. -/
structure RespData where
  data : Option (List (Option DataItem))
  choiceMessage : Option Message
  errorF : Option String
  messageF : Option String
  deriving DecidableEq, Repr

/-- `_dedupe_preserve` (main.py lines 554-562), with the `seen` set as an
explicit accumulator: empty strings and already-seen items are skipped. -/
def dedupePreserveAux (seen : List String) : List String → List String
  | [] => []
  | x :: xs =>
    if x = "" ∨ x ∈ seen then dedupePreserveAux seen xs
    else x :: dedupePreserveAux (x :: seen) xs

def dedupePreserve (items : List String) : List String :=
  dedupePreserveAux [] items

/-- The spec's description of `_dedupe_preserve`: keep each element's first
occurrence, in order.  Modelled from the spec sentence "All collected URLs
and inline data URIs are deduplicated preserving first-seen order", as the
reference point of the refinement proof for `dedupePreserve`. -/
def firstOccurrenceFilter : List String → List String
  | [] => []
  | x :: xs => x :: firstOccurrenceFilter (xs.filter (fun y => ! (y == x)))
  termination_by l => l.length
  decreasing_by
    simp only [List.length_cons]
    exact Nat.lt_succ_of_le (List.length_filter_le _ _)

/-- Collector for the `data`-field loop (main.py lines 484-493).  The source
appends URLs and base64 payloads to two lists in one pass; the two passes
here build the same two lists. -/
def dataItemUrl (o : Option DataItem) : Option String :=
  match o with
  | some it =>
    match it.url with
    | some u => if isValidImageUrl u false then some u else none
    | none => none
  | none => none

def dataItemB64 (o : Option DataItem) : Option String :=
  match o with
  | some it =>
    match it.b64_json with
    | some b => if b ≠ "" then some ("data:image/png;base64," ++ b) else none
    | none => none
  | none => none

/-- Append the value of an optional collection step. -/
def appendOpt (acc : List String) (o : Option String) : List String :=
  match o with
  | some s => acc ++ [s]
  | none => acc

def dataFieldUrls (items : List (Option DataItem)) : List String :=
  items.foldl (fun acc item => appendOpt acc (dataItemUrl item)) []

def dataFieldB64s (items : List (Option DataItem)) : List String :=
  items.foldl (fun acc item => appendOpt acc (dataItemB64 item)) []

/-- URL contributed by an `image_url`-typed content part
(main.py lines 511-519). -/
def partUrlStep (o : Option ContentPart) : Option String :=
  match o with
  | some part =>
    if part.type = some "image_url" then
      match partImageUrl part with
      | some u => if isValidImageUrl u false then some u else none
      | none => none
    else none
  | none => none

/-- Text contributed by a `text`-typed content part (main.py lines 520-521). -/
def partTextStep (o : Option ContentPart) : Option String :=
  match o with
  | some part =>
    if part.type = some "text" then part.text else none
  | none => none

def partsUrls (l : List (Option ContentPart)) : List String :=
  l.foldl (fun acc p => appendOpt acc (partUrlStep p)) []

def partsTexts (l : List (Option ContentPart)) : List String :=
  l.foldl (fun acc p => appendOpt acc (partTextStep p)) []

/-- The attachment-compatibility loop (main.py lines 532-540): the four
fields in source order, each item's string URL kept when valid. -/
def collectAttachmentUrls (msg : Message) : List String :=
  (msg.attachments ++ msg.media ++ msg.files ++ msg.images).foldl
    (fun acc o =>
      match o with
      | some u => if isValidImageUrl u false then acc ++ [u] else acc
      | none => acc) []

def noValidImageMsg : String := "未能从 API 响应中提取到有效图片"

/-- URLs and data URIs contributed by the first choice's message
(main.py lines 495-540). -/
def extractFromChoice (msg : Message) : List String × List String :=
  let contentPair :=
    match msg.content with
    | .parts l =>
      let urls := partsUrls l
      let texts := partsTexts l
      if texts.isEmpty then (urls, [])
      else
        let content_text := String.intercalate "\n" texts
        (urls ++ extractImageUrlsFromText content_text,
         extractDataUrlsFromText content_text)
    | .text s => (extractImageUrlsFromText s, extractDataUrlsFromText s)
    | .other => ([], [])
  (contentPair.1 ++ collectAttachmentUrls msg, contentPair.2)

/-- `_extract_image_results` (main.py lines 473-552).  The outer
`try/except` of the source cannot fire in this embedding (every probe is
total), so the exception branch of lines 550-552 has no counterpart. -/
def extractImageResults (r : RespData) : List String × List String × Option String :=
  let dataPair :=
    match r.data with
    | some items => (dataFieldUrls items, dataFieldB64s items)
    | none => ([], [])
  let choicePair :=
    match r.choiceMessage with
    | some msg => extractFromChoice msg
    | none => ([], [])
  let image_urls := dedupePreserve (dataPair.1 ++ choicePair.1)
  let data_urls := dedupePreserve (dataPair.2 ++ choicePair.2)
  if image_urls.isEmpty && data_urls.isEmpty then
    ([], [], some noValidImageMsg)
  else
    (image_urls, data_urls, none)

/-! ## API client (`_call_grok_api`, main.py lines 373-471)

One loop iteration is driven by what the environment does on that attempt:
an HTTP response with a status and a body, a timeout, or another transport
exception.  A received body is either parseable JSON (with, for the non-200
fallback branch, the f-string rendering of the parsed dict) or malformed
(with the `JSONDecodeError` text and the raw response text). -/

inductive RespBody
  | jsonOf (r : RespData) (rendered : String)
  | malformed (emsg raw : String)
  deriving DecidableEq, Repr

inductive HttpAttempt
  | response (status : Nat) (body : RespBody)
  | timeout
  | transportError (emsg : String)
  deriving DecidableEq, Repr

inductive ApiResult
  | ok (image_urls data_urls : List String)
  | err (msg : String)
  deriving DecidableEq, Repr

/-- The `: …` detail appended to the non-200 error message
(main.py lines 439-449): the body's `error` field, else its `message` field,
else the rendering of the whole parsed dict; for an unparseable body the
first 200 characters of the raw text. -/
def errorDetailText : RespBody → String
  | .jsonOf r rendered =>
    match r.errorF with
    | some e => ": " ++ e
    | none =>
      match r.messageF with
      | some m => ": " ++ m
      | none => ": " ++ rendered
  | .malformed _ raw => ": " ++ raw.take 200

def non200ErrMsg (status : Nat) (body : RespBody) : String :=
  "API请求失败 (状态码: " ++ toString status ++ ")" ++ errorDetailText body

def timeoutMsg (timeout_seconds : Nat) : String :=
  "请求超时 (" ++ toString timeout_seconds ++ "秒)"

def forbiddenMsg : String := "API访问被拒绝，请检查密钥和权限"

def noImageLinkMsg : String := "API响应中未包含有效的图片链接"

/-- The 200-status branch (main.py lines 420-433): parse failure is
terminal; otherwise feed `_extract_image_results` and propagate its error or
its lists. -/
def handle200 : RespBody → ApiResult
  | .malformed emsg raw =>
    .err ("API响应JSON解析失败: " ++ emsg ++ ", 响应内容: " ++ raw.take 200)
  | .jsonOf r _ =>
    match extractImageResults r with
    | (image_urls, data_urls, parse_error) =>
      match parse_error with
      | some e => .err e
      | none =>
        if !image_urls.isEmpty || !data_urls.isEmpty then .ok image_urls data_urls
        else .err noImageLinkMsg

/-- The retry loop of `_call_grok_api` (main.py lines 407-471).  The list
holds one environment outcome per loop iteration (so its length is the
configured `max_retry_attempts`); `used` counts attempts already made.
`rest.isEmpty` is `attempt == self.max_retry_attempts - 1`.  Returns the
result together with the number of attempts performed. -/
def runAttempts (timeout_seconds : Nat) : List HttpAttempt → Nat → ApiResult × Nat
  | [], used => (.err "所有重试均失败", used)
  | a :: rest, used =>
    match a with
    | .response s body =>
      if s = 200 then (handle200 body, used + 1)
      else if s = 403 then (.err forbiddenMsg, used + 1)
      else if rest.isEmpty then (.err (non200ErrMsg s body), used + 1)
      else runAttempts timeout_seconds rest (used + 1)
    | .timeout =>
      if rest.isEmpty then (.err (timeoutMsg timeout_seconds), used + 1)
      else runAttempts timeout_seconds rest (used + 1)
    | .transportError emsg =>
      if rest.isEmpty then (.err ("请求异常: " ++ emsg), used + 1)
      else runAttempts timeout_seconds rest (used + 1)

/-- `_call_grok_api` (main.py lines 373-471): a missing key is an immediate
error with no attempt; otherwise the retry loop runs. -/
def callGrokApi (api_key : String) (timeout_seconds : Nat)
    (attempts : List HttpAttempt) : ApiResult × Nat :=
  if api_key = "" then (.err "未配置API密钥", 0)
  else runAttempts timeout_seconds attempts 0

/-- Does an attempt take the retry-or-return-on-last path (non-200, non-403
response, timeout, or transport error)? -/
def retryableAttempt : HttpAttempt → Bool
  | .response s _ => ! (s == 200) && ! (s == 403)
  | .timeout => true
  | .transportError _ => true

/-- The error message a retryable attempt produces when it is the last one. -/
def lastAttemptErrMsg (timeout_seconds : Nat) : HttpAttempt → String
  | .response s body => non200ErrMsg s body
  | .timeout => timeoutMsg timeout_seconds
  | .transportError emsg => "请求异常: " ++ emsg

/-! ## Delivery and core flow (`_async_edit_image` lines 750-764,
`_generate_image_edit_core` lines 686-721) -/

inductive ImgComponent
  | fromURL (url : String)
  | fromFileSystem (path : String)
  deriving DecidableEq, Repr

/-- First delivery loop (main.py lines 753-757): remote URLs, stopping at
the image cap. -/
def addUrlComponents (maxImages : Nat) : List String → Nat → List ImgComponent × Nat
  | [], count => ([], count)
  | u :: us, count =>
    if maxImages ≤ count then ([], count)
    else
      let rest := addUrlComponents maxImages us (count + 1)
      (.fromURL u :: rest.1, rest.2)

/-- Second delivery loop (main.py lines 759-764): local paths, each run
through `_prepare_image_path` (the optional file relay, embedded as the
function `prepare`), stopping at the image cap. -/
def addPathComponents (maxImages : Nat) (prepare : String → String) :
    List String → Nat → List ImgComponent × Nat
  | [], count => ([], count)
  | p :: ps, count =>
    if maxImages ≤ count then ([], count)
    else
      let rest := addPathComponents maxImages prepare ps (count + 1)
      (.fromFileSystem (prepare p) :: rest.1, rest.2)

/-- The components `_async_edit_image` delivers (main.py lines 750-764). -/
def deliveryComponents (maxImages : Nat) (prepare : String → String)
    (image_urls image_paths : List String) : List ImgComponent :=
  let r1 := addUrlComponents maxImages image_urls 0
  let r2 := addPathComponents maxImages prepare image_paths r1.2
  r1.1 ++ r2.1

/-- The tail of `_generate_image_edit_core` once an image list is at hand
(main.py lines 707-721): call the API with the first image only, then
materialize each returned data URI via `_save_base64_image` (embedded as the
best-effort function `save`, `none` = decode/write failure, skipped). -/
def coreWithImages (api : String → List String × List String × Option String)
    (save : String → Option String) (images : List String) :
    List String × List String × Option String :=
  match images with
  | [] => ([], [], some "未找到图片，请在消息中包含图片或引用包含图片的消息")
  | image_base64 :: _ =>
    match api image_base64 with
    | (image_urls, data_urls, error_msg) =>
      match error_msg with
      | some e => ([], [], some e)
      | none => (image_urls, data_urls.filterMap save, none)

/-- `_generate_image_edit_core` (main.py lines 686-721).  `api` embeds
`_call_grok_api` applied to the prompt; `extracted` embeds the result of
`_extract_images_from_message`, consulted only when no prefetched images are
supplied. -/
def generateImageEditCore (enabled : Bool)
    (api : String → List String × List String × Option String)
    (save : String → Option String)
    (prefetched_images : Option (List String)) (prefetched_error : Option String)
    (extracted : List String × Option String) :
    List String × List String × Option String :=
  if !enabled then ([], [], some "图片编辑功能已禁用")
  else
    match prefetched_error with
    | some e => ([], [], some e)
    | none =>
      match prefetched_images with
      | none =>
        match extracted with
        | (_, some e) => ([], [], some e)
        | (images, none) => coreWithImages api save images
      | some images => coreWithImages api save images

/-! ## Lemmas about the rate limiter -/

/-- Within an active window, a call under the limit is allowed and increments
the count, keeping the window start. -/
theorem checkRateLimit_active_allow (cfg : RateCfg) (now : Int) (b : RateBucket)
    (hwin : now - b.window_start < cfg.window_seconds)
    (hcount : b.count < cfg.max_calls) :
    checkRateLimit cfg now (some b) = (none, some ⟨b.window_start, b.count + 1⟩) := by
  have h1 : ¬ (cfg.window_seconds ≤ now - b.window_start) := by omega
  have h2 : ¬ (cfg.max_calls ≤ b.count) := by omega
  simp [checkRateLimit, h1, h2]

/-- Within an active window, a call at the limit is denied and leaves the
stored bucket unchanged. -/
theorem checkRateLimit_active_deny (cfg : RateCfg) (now : Int) (b : RateBucket)
    (hwin : now - b.window_start < cfg.window_seconds)
    (hcount : cfg.max_calls ≤ b.count) :
    checkRateLimit cfg now (some b) = (some (rateDenyMsg cfg), some b) := by
  have h1 : ¬ (cfg.window_seconds ≤ now - b.window_start) := by omega
  simp [checkRateLimit, h1, hcount]

/-- Once the window has elapsed, the count is reset and the call starts a
fresh window with count 1. -/
theorem checkRateLimit_expired (cfg : RateCfg) (now : Int) (b : RateBucket)
    (hexp : cfg.window_seconds ≤ now - b.window_start)
    (hm : 0 < cfg.max_calls) :
    checkRateLimit cfg now (some b) = (none, some ⟨now, 1⟩) := by
  have h2 : ¬ (cfg.max_calls ≤ 0) := by omega
  simp [checkRateLimit, hexp, h2]

/-- The first call of a scope creates the bucket with count 1. -/
theorem checkRateLimit_fresh (cfg : RateCfg) (now : Int)
    (hw : 0 < cfg.window_seconds) (hm : 0 < cfg.max_calls) :
    checkRateLimit cfg now none = (none, some ⟨now, 1⟩) := by
  have h1 : ¬ (cfg.window_seconds ≤ now - now) := by omega
  have h2 : ¬ (cfg.max_calls ≤ 0) := by omega
  simp [checkRateLimit, h1, h2]

/-- Runs whose timestamps stay inside the window of a bucket `⟨t0, c⟩`:
the first `max_calls - c` calls are allowed, all later ones denied, and the
count is capped at `max_calls`. -/
theorem rateRunTimes_active (cfg : RateCfg) (t0 : Int) (ts : List Int) :
    ∀ c : Nat, (∀ t ∈ ts, t - t0 < cfg.window_seconds) → c ≤ cfg.max_calls →
      rateRunTimes cfg (some ⟨t0, c⟩) ts
        = (List.replicate (min ts.length (cfg.max_calls - c)) (none : Option String)
            ++ List.replicate (ts.length - (cfg.max_calls - c)) (some (rateDenyMsg cfg)),
           some ⟨t0, min cfg.max_calls (c + ts.length)⟩) := by
  induction ts with
  | nil =>
    intro c _ hc
    simp [rateRunTimes, Nat.min_eq_right hc]
  | cons t ts ih =>
    intro c hts hc
    have hwin : t - t0 < cfg.window_seconds := hts t (by simp)
    have htail : ∀ x ∈ ts, x - t0 < cfg.window_seconds := fun x hx => hts x (by simp [hx])
    rcases Nat.lt_or_ge c cfg.max_calls with hlt | hge
    · have hstep := checkRateLimit_active_allow cfg t ⟨t0, c⟩ hwin hlt
      have h1 : min (ts.length + 1) (cfg.max_calls - c)
          = min ts.length (cfg.max_calls - (c + 1)) + 1 := by omega
      have h2 : ts.length + 1 - (cfg.max_calls - c)
          = ts.length - (cfg.max_calls - (c + 1)) := by omega
      have h3 : min cfg.max_calls (c + (ts.length + 1))
          = min cfg.max_calls (c + 1 + ts.length) := by omega
      simp only [rateRunTimes, hstep]
      rw [ih (c + 1) htail hlt]
      simp [h1, h2, h3, List.replicate_succ]
    · have h0 : cfg.max_calls - c = 0 := by omega
      have h3 : min cfg.max_calls (c + (ts.length + 1)) = cfg.max_calls := by omega
      have h4 : min cfg.max_calls (c + ts.length) = cfg.max_calls := by omega
      have hstep := checkRateLimit_active_deny cfg t ⟨t0, c⟩ hwin hge
      simp only [rateRunTimes, hstep]
      rw [ih c htail hc]
      simp [h0, h3, h4, List.replicate_succ]

/-- C1: with rate limiting enabled, for any scope and any sequence of calls
whose timestamps stay inside the window opened by the first call, exactly
`rate_limit_max_calls` calls are allowed (each raising the count by one, up
to exactly `max_calls`) and every further call in the window is denied with
the message naming the configured limit and window; a single in-window call
below the limit increments the count, the count stored in an active window
never exceeds the configured max, and once `now - window_start >=
window_seconds` the count is reset, the next call starting a fresh window
with count 1. -/
theorem C1_rate_limit_window (cfg : RateCfg) (t0 now : Int) (ts : List Int) (b : RateBucket)
    (hw : 0 < cfg.window_seconds) (hm : 0 < cfg.max_calls)
    (hts : ∀ t ∈ ts, t - t0 < cfg.window_seconds) :
    ((rateRunTimes cfg none (t0 :: ts)).1
        = List.replicate (min (ts.length + 1) cfg.max_calls) (none : Option String)
          ++ List.replicate (ts.length + 1 - cfg.max_calls) (some (rateDenyMsg cfg)))
    ∧ (rateRunTimes cfg none (t0 :: ts)).2
        = some ⟨t0, min cfg.max_calls (ts.length + 1)⟩
    ∧ (now - b.window_start < cfg.window_seconds → b.count < cfg.max_calls →
        checkRateLimit cfg now (some b) = (none, some ⟨b.window_start, b.count + 1⟩))
    ∧ (now - b.window_start < cfg.window_seconds → cfg.max_calls ≤ b.count →
        checkRateLimit cfg now (some b) = (some (rateDenyMsg cfg), some b))
    ∧ (b.count ≤ cfg.max_calls →
        ((checkRateLimit cfg now (some b)).2.getD b).count ≤ cfg.max_calls)
    ∧ (cfg.window_seconds ≤ now - b.window_start →
        checkRateLimit cfg now (some b) = (none, some ⟨now, 1⟩))
    ∧ (rateDenyMsg cfg).data
        = "本群调用已达上限（".data ++ (toString cfg.max_calls).data ++ "次/".data
          ++ (toString cfg.window_seconds).data ++ "秒），请稍后再试".data := by
  have hfirst := checkRateLimit_fresh cfg t0 hw hm
  have hrun := rateRunTimes_active cfg t0 ts 1 hts hm
  have h1 : min (ts.length + 1) cfg.max_calls
      = min ts.length (cfg.max_calls - 1) + 1 := by omega
  have h2 : ts.length + 1 - cfg.max_calls = ts.length - (cfg.max_calls - 1) := by omega
  have h3 : min cfg.max_calls (1 + ts.length) = min cfg.max_calls (ts.length + 1) := by omega
  refine ⟨?_, ?_, ?_, ?_, ?_, ?_, ?_⟩
  · simp only [rateRunTimes, hfirst]
    rw [hrun]
    simp [h1, h2, List.replicate_succ]
  · simp only [rateRunTimes, hfirst]
    rw [hrun]
    simp [h3]
  · exact fun hwin hcount => checkRateLimit_active_allow cfg now b hwin hcount
  · exact fun hwin hcount => checkRateLimit_active_deny cfg now b hwin hcount
  · intro hble
    by_cases hexp : cfg.window_seconds ≤ now - b.window_start
    · rw [checkRateLimit_expired cfg now b hexp hm]
      simpa using hm
    · by_cases hcount : cfg.max_calls ≤ b.count
      · rw [checkRateLimit_active_deny cfg now b (by omega) hcount]
        simpa using hble
      · rw [checkRateLimit_active_allow cfg now b (by omega) (by omega)]
        simpa using hcount
  · intro hexp
    exact checkRateLimit_expired cfg now b hexp hm
  · simp [rateDenyMsg, String.data_append]

/-- Witness for C1 at a concrete configuration: max 2 calls per 3600-second
window; three calls at times 0, 1, 2 produce allow, allow, deny. -/
theorem C1_rate_limit_window_witness :
    (rateRunTimes ⟨3600, 2⟩ none [0, 1, 2]).1
      = [none, none, some (rateDenyMsg ⟨3600, 2⟩)] := by
  have h := C1_rate_limit_window ⟨3600, 2⟩ 0 5 [1, 2] ⟨0, 1⟩
    (by decide) (by decide) (by decide)
  rw [h.1]
  rfl

/-- C9: an unexpected internal exception while evaluating the group access
check is caught and the check returns no denial (fail open): the request is
allowed, whatever the configuration, scope, clock and stored bucket. -/
theorem C9_access_check_fail_open (cfg : AccessCfg) (group_id : Option String)
    (now : Int) (stored : Option RateBucket) (e : String) :
    checkGroupAccess cfg group_id now stored (some e) = (none, stored) := rfl

/-! ## Lemmas about the pending-task map -/

theorem lookupTask_insert (m : TaskMap) (u t : String) :
    lookupTask (insertTask m u t) u = some t := by
  simp [lookupTask, insertTask, List.find?]

theorem lookupTask_remove (m : TaskMap) (u : String) :
    lookupTask (removeTask m u) u = none := by
  simp only [lookupTask, removeTask, Option.map_eq_none', List.find?_eq_none]
  intro p hp
  have := List.of_mem_filter hp
  simpa using this

theorem pendingCount_insert (m : TaskMap) (u t : String) :
    pendingCount (insertTask m u t) u = 1 := by
  simp only [pendingCount, insertTask, removeTask, List.filter_cons]
  have : List.filter (fun p => p.1 == u) (List.filter (fun p => ! (p.1 == u)) m) = [] := by
    rw [List.filter_eq_nil_iff]
    intro p hp
    have := List.of_mem_filter hp
    simpa using this
  simp [this]

theorem pendingCount_remove (m : TaskMap) (u : String) :
    pendingCount (removeTask m u) u = 0 := by
  simp only [pendingCount, removeTask, List.length_eq_zero]
  rw [List.filter_eq_nil_iff]
  intro p hp
  have := List.of_mem_filter hp
  simpa using this

/-- C2: at most one pending task per user.  A request finding the user's
token present is rejected with the busy message and leaves the map
unchanged; a request finding no token (given an image) is accepted and
records the token; whatever the outcome of the asynchronous edit body
(success, handled error, unhandled exception), its `finally` clause removes
the recorded token; after a finished task a new request from the same user
is accepted again; and the map never holds more than one entry per user. -/
theorem C2_single_pending_task (m : TaskMap) (u t t2 : String) (images : List String)
    (outcome : EditOutcome) (himg : images ≠ []) :
    ((lookupTask m u).isSome → cmdEditImage m none images none u t = (some busyMsg, m))
    ∧ (lookupTask m u = none →
        cmdEditImage m none images none u t = (none, insertTask m u t))
    ∧ lookupTask (insertTask m u t) u = some t
    ∧ (lookupTask m u = some t → lookupTask (asyncEditFinish m u t outcome) u = none)
    ∧ cmdEditImage (asyncEditFinish (insertTask m u t) u t outcome) none images none u t2
        = (none, insertTask (asyncEditFinish (insertTask m u t) u t outcome) u t2)
    ∧ pendingCount (insertTask m u t) u = 1
    ∧ pendingCount (removeTask m u) u = 0 := by
  have himg' : images.isEmpty = false := by
    cases images with
    | nil => exact absurd rfl himg
    | cons a l => rfl
  have hfinish : asyncEditFinish (insertTask m u t) u t outcome
      = removeTask (insertTask m u t) u := by
    simp [asyncEditFinish, lookupTask_insert]
  refine ⟨?_, ?_, lookupTask_insert m u t, ?_, ?_, pendingCount_insert m u t,
    pendingCount_remove m u⟩
  · intro h
    simp [cmdEditImage, h]
  · intro h
    simp [cmdEditImage, h, himg']
  · intro h
    simp [asyncEditFinish, h, lookupTask_remove]
  · rw [hfinish]
    simp [cmdEditImage, lookupTask_remove, himg']

/-- Witness for C2: an accepted task for user `u`, finished successfully,
frees the busy slot, and the next request is accepted with the new token. -/
theorem C2_single_pending_task_witness :
    cmdEditImage (asyncEditFinish (insertTask [] "u" "t1") "u" "t1" EditOutcome.success)
        none ["i"] none "u" "t2" = (none, [("u", "t2")]) := by
  have h := (C2_single_pending_task [] "u" "t1" "t2" ["i"] EditOutcome.success
    (by decide)).2.2.2.2.1
  rw [h]
  rfl

/-! ## Lemmas about the API client -/

/-- A response body that yields no image (an empty JSON object). -/
def emptyRespSample : RespData := ⟨none, none, none, none⟩

/-- A response body whose `data` list carries one valid image URL. -/
def urlRespSample : RespData := ⟨some [some ⟨some "https://x/a.png", none⟩], none, none, none⟩

/-- C3: retry policy of the attempt loop.  A non-200, non-403 response, a
timeout or a transport error moves on to the next attempt when one remains,
and returns that attempt's error when it was the last; a 403 response
returns its error immediately, with no further attempt; a 200 response with
a malformed JSON body returns a terminal parse error immediately; and
concretely, with 2 configured attempts, a first-attempt 500 followed by a
second-attempt 200 succeeds after exactly 2 attempts, while a first-attempt
403 fails after exactly 1 attempt. -/
theorem C3_api_retry_policy (timeout_seconds used : Nat) (a : HttpAttempt)
    (rest : List HttpAttempt) (body : RespBody) (emsg raw : String)
    (hr : retryableAttempt a = true) (hrest : rest ≠ []) :
    runAttempts timeout_seconds (a :: rest) used
        = runAttempts timeout_seconds rest (used + 1)
    ∧ runAttempts timeout_seconds [a] used
        = (.err (lastAttemptErrMsg timeout_seconds a), used + 1)
    ∧ runAttempts timeout_seconds (HttpAttempt.response 403 body :: rest) used
        = (.err forbiddenMsg, used + 1)
    ∧ runAttempts timeout_seconds
          (HttpAttempt.response 200 (RespBody.malformed emsg raw) :: rest) used
        = (.err ("API响应JSON解析失败: " ++ emsg ++ ", 响应内容: " ++ raw.take 200),
           used + 1)
    ∧ callGrokApi "k" 120
          [HttpAttempt.response 500 (RespBody.jsonOf emptyRespSample ""),
           HttpAttempt.response 200 (RespBody.jsonOf urlRespSample "")]
        = (.ok ["https://x/a.png"] [], 2)
    ∧ callGrokApi "k" 120
          [HttpAttempt.response 403 (RespBody.jsonOf emptyRespSample ""),
           HttpAttempt.response 200 (RespBody.jsonOf urlRespSample "")]
        = (.err forbiddenMsg, 1) := by
  have hre : rest.isEmpty = false := by
    cases rest with
    | nil => exact absurd rfl hrest
    | cons x xs => rfl
  refine ⟨?_, ?_, ?_, ?_, by decide, by decide⟩
  · cases a with
    | response s b =>
      simp only [retryableAttempt, Bool.and_eq_true, Bool.not_eq_true', beq_eq_false_iff_ne,
        ne_eq] at hr
      simp [runAttempts, hr.1, hr.2, hre]
    | timeout => simp [runAttempts, hre]
    | transportError e => simp [runAttempts, hre]
  · cases a with
    | response s b =>
      simp only [retryableAttempt, Bool.and_eq_true, Bool.not_eq_true', beq_eq_false_iff_ne,
        ne_eq] at hr
      simp [runAttempts, lastAttemptErrMsg, hr.1, hr.2]
    | timeout => simp [runAttempts, lastAttemptErrMsg]
    | transportError e => simp [runAttempts, lastAttemptErrMsg]
  · simp [runAttempts]
  · simp [runAttempts, handle200]

/-- Witness for C3: two timeouts with a 2-attempt budget retry once, then
return the timeout error after the second (last) attempt. -/
theorem C3_api_retry_policy_witness :
    runAttempts 120 [HttpAttempt.timeout, HttpAttempt.timeout] 0
      = (.err (timeoutMsg 120), 2) := by
  have h1 := (C3_api_retry_policy 120 0 HttpAttempt.timeout [HttpAttempt.timeout]
    (RespBody.malformed "" "") "" "" (by decide) (by decide)).1
  have h2 := (C3_api_retry_policy 120 1 HttpAttempt.timeout [HttpAttempt.timeout]
    (RespBody.malformed "" "") "" "" (by decide) (by decide)).2.1
  rw [h1]
  simpa [lastAttemptErrMsg] using h2

/-! ## Lemmas about the parser -/

/-- Folding `appendOpt` over a list collects exactly the `filterMap` of the
per-item step, in order, after the accumulator. -/
theorem foldl_appendOpt {α : Type} (g : α → Option String) (l : List α)
    (acc : List String) :
    l.foldl (fun a x => appendOpt a (g x)) acc = acc ++ l.filterMap g := by
  induction l generalizing acc with
  | nil => simp
  | cons x xs ih =>
    have hstep : List.foldl (fun a x => appendOpt a (g x)) acc (x :: xs)
        = List.foldl (fun a x => appendOpt a (g x)) (appendOpt acc (g x)) xs := rfl
    rw [hstep, ih (appendOpt acc (g x))]
    cases hx : g x with
    | none => simp [appendOpt, hx, List.filterMap_cons]
    | some b => simp [appendOpt, hx, List.filterMap_cons]

/-- C4: the structured `data` list contributes, in item order, every string
`url` that passes URL validation to the remote-URL list and every non-empty
string `b64_json` payload, wrapped as `data:image/png;base64,<payload>`, to
the inline list; in particular the response
`data: [{url: "https://x/a.png"}, {b64_json: "QUFB"}]` parses to
`(["https://x/a.png"], ["data:image/png;base64,QUFB"])` with no error. -/
theorem C4_data_field_extraction (items : List (Option DataItem)) :
    dataFieldUrls items = items.filterMap dataItemUrl
    ∧ dataFieldB64s items = items.filterMap dataItemB64
    ∧ (∀ u, dataItemUrl (some ⟨some u, none⟩)
        = if isValidImageUrl u false then some u else none)
    ∧ (∀ b, dataItemB64 (some ⟨none, some b⟩)
        = if b ≠ "" then some ("data:image/png;base64," ++ b) else none)
    ∧ extractImageResults
        ⟨some [some ⟨some "https://x/a.png", none⟩, some ⟨none, some "QUFB"⟩],
         none, none, none⟩
      = (["https://x/a.png"], ["data:image/png;base64,QUFB"], none) := by
  refine ⟨foldl_appendOpt dataItemUrl items [], foldl_appendOpt dataItemB64 items [],
    fun u => rfl, fun b => rfl, by decide⟩

/-- C5: the URL validator only accepts strings that start with `http://` or
`https://`, have length at least 10 and contain none of the characters
`<ANGLE>`, quote, apostrophe, newline, carriage return or tab, and, when an
extension is required, that carry a recognized image extension followed by
the end of the URL or a query/fragment delimiter; it rejects
`ftp://x/a.png`, rejects `http://x/a` when an extension is required, and
rejects every URL containing a raw `<` character. -/
theorem C5_url_validation (url : String) (require_extension : Bool)
    (hvalid : isValidImageUrl url require_extension = true) :
    ("http://".data.isPrefixOf url.data || "https://".data.isPrefixOf url.data) = true
    ∧ 10 ≤ url.length
    ∧ (∀ c ∈ INVALID_URL_CHARS, ¬ c ∈ url.data)
    ∧ (require_extension = true → hasImageExtension url.data = true)
    ∧ isValidImageUrl "ftp://x/a.png" require_extension = false
    ∧ isValidImageUrl "http://x/a" true = false
    ∧ (∀ v : String, '<' ∈ v.data → isValidImageUrl v require_extension = false) := by
  have hreject : ∀ v : String, '<' ∈ v.data →
      isValidImageUrl v require_extension = false := by
    intro v hv
    have hany : (INVALID_URL_CHARS.any fun c => v.data.contains c) = true := by
      refine List.any_eq_true.mpr ⟨'<', by simp [INVALID_URL_CHARS], by simp [hv]⟩
    simp only [isValidImageUrl]
    by_cases hl : v.length < 10
    · simp [hl]
    · rw [if_neg hl]
      by_cases hp : (! ("http://".data.isPrefixOf v.data
          || "https://".data.isPrefixOf v.data)) = true
      · rw [if_pos hp]
      · rw [if_neg hp]
        by_cases he : (require_extension && ! hasImageExtension v.data) = true
        · rw [if_pos he]
        · rw [if_neg he, if_pos hany]
  simp only [isValidImageUrl] at hvalid
  by_cases h1 : url.length < 10
  · rw [if_pos h1] at hvalid
    exact absurd hvalid (by simp)
  rw [if_neg h1] at hvalid
  by_cases h2 : (! ("http://".data.isPrefixOf url.data
      || "https://".data.isPrefixOf url.data)) = true
  · rw [if_pos h2] at hvalid
    exact absurd hvalid (by simp)
  rw [if_neg h2] at hvalid
  have h2' : ("http://".data.isPrefixOf url.data
      || "https://".data.isPrefixOf url.data) = true := by
    cases hab : ("http://".data.isPrefixOf url.data
        || "https://".data.isPrefixOf url.data) with
    | false => exact absurd (by simp [hab]) h2
    | true => rfl
  by_cases h3 : (require_extension && ! hasImageExtension url.data) = true
  · rw [if_pos h3] at hvalid
    exact absurd hvalid (by simp)
  rw [if_neg h3] at hvalid
  by_cases h4 : (INVALID_URL_CHARS.any fun c => url.data.contains c) = true
  · rw [if_pos h4] at hvalid
    exact absurd hvalid (by simp)
  have hext : require_extension = true → hasImageExtension url.data = true := by
    intro hre
    cases h5 : hasImageExtension url.data with
    | false => exact absurd (by simp [hre, h5]) h3
    | true => rfl
  refine ⟨h2', by omega, ?_, hext, ?_, by decide, hreject⟩
  · intro c hc hmem
    exact h4 (List.any_eq_true.mpr ⟨c, hc, by simp [hmem]⟩)
  · cases require_extension <;> decide

/-- Witness for C5 at `https://x/a.png` with the extension requirement. -/
theorem C5_url_validation_witness :
    ("http://".data.isPrefixOf "https://x/a.png".data
        || "https://".data.isPrefixOf "https://x/a.png".data) = true
    ∧ isValidImageUrl "ftp://x/a.png" true = false
    ∧ isValidImageUrl "http://x/a" true = false := by
  have h := C5_url_validation "https://x/a.png" true (by decide)
  exact ⟨h.1, h.2.2.2.2.1, h.2.2.2.2.2.1⟩

/-! ## Lemmas about deduplication -/

theorem dedupePreserveAux_not_mem_seen (l : List String) :
    ∀ seen, ∀ x ∈ dedupePreserveAux seen l, ¬ x ∈ seen := by
  induction l with
  | nil =>
    intro seen x hx
    simp [dedupePreserveAux] at hx
  | cons y ys ih =>
    intro seen x hx
    by_cases hy : y = "" ∨ y ∈ seen
    · simp only [dedupePreserveAux] at hx
      rw [if_pos hy] at hx
      exact ih seen x hx
    · simp only [dedupePreserveAux] at hx
      rw [if_neg hy] at hx
      rcases List.mem_cons.mp hx with rfl | hx'
      · exact fun hxs => hy (Or.inr hxs)
      · have h2 := ih (y :: seen) x hx'
        exact fun hs => h2 (List.mem_cons.mpr (Or.inr hs))

theorem dedupePreserveAux_nodup (l : List String) :
    ∀ seen, (dedupePreserveAux seen l).Nodup := by
  induction l with
  | nil => intro seen; simp [dedupePreserveAux]
  | cons y ys ih =>
    intro seen
    by_cases hy : y = "" ∨ y ∈ seen
    · simp only [dedupePreserveAux]
      rw [if_pos hy]
      exact ih seen
    · simp only [dedupePreserveAux]
      rw [if_neg hy]
      refine List.nodup_cons.mpr ⟨?_, ih (y :: seen)⟩
      intro hmem
      exact dedupePreserveAux_not_mem_seen ys (y :: seen) y hmem (List.mem_cons_self y seen)

/-- `dedupePreserveAux` refines the spec's first-seen filter: it keeps, in
order, the first occurrence of each nonempty not-yet-seen element. -/
theorem dedupePreserveAux_eq_firstOcc (l : List String) :
    ∀ seen, dedupePreserveAux seen l
      = firstOccurrenceFilter (l.filter (fun x => ! (x == "") && ! seen.contains x)) := by
  induction l with
  | nil => intro seen; simp [dedupePreserveAux, firstOccurrenceFilter]
  | cons y ys ih =>
    intro seen
    by_cases hy : y = "" ∨ y ∈ seen
    · have hf : (! (y == "") && ! seen.contains y) = false := by
        rcases hy with h | h
        · simp [h]
        · simp [h]
      simp only [dedupePreserveAux]
      rw [if_pos hy, List.filter_cons, hf]
      simpa using ih seen
    · obtain ⟨hne, hnm⟩ := not_or.mp hy
      have hf : (! (y == "") && ! seen.contains y) = true := by simp [hne, hnm]
      simp only [dedupePreserveAux]
      rw [if_neg hy, List.filter_cons, hf]
      simp only [if_true]
      have hsets : (ys.filter (fun x => ! (x == "") && ! seen.contains x)).filter
            (fun z => ! (z == y))
          = ys.filter (fun x => ! (x == "") && ! ((y :: seen).contains x)) := by
        rw [List.filter_filter]
        apply List.filter_congr
        intro a _
        by_cases h1 : a = y <;> by_cases h2 : a = "" <;> by_cases h3 : a ∈ seen <;>
          simp [h1, h2, h3]
      simp only [firstOccurrenceFilter]
      rw [hsets, ih (y :: seen)]

theorem dedupePreserve_eq_firstOcc (l : List String) :
    dedupePreserve l = firstOccurrenceFilter (l.filter (fun x => ! (x == ""))) := by
  have h := dedupePreserveAux_eq_firstOcc l []
  simpa [dedupePreserve] using h

theorem extractImageResults_nodup (r : RespData) :
    (extractImageResults r).1.Nodup ∧ (extractImageResults r).2.1.Nodup := by
  simp only [extractImageResults]
  split
  · simp
  · exact ⟨dedupePreserveAux_nodup _ [], dedupePreserveAux_nodup _ []⟩

/-- C6: both lists returned by the parser are duplicate-free, and
`_dedupe_preserve` keeps exactly the first occurrence of each (nonempty)
element, in first-seen order; feeding the same URL from two different
extraction sources (the structured `data` field and the attachments list)
yields it once. -/
theorem C6_dedupe_first_seen (r : RespData) (l : List String) :
    (extractImageResults r).1.Nodup
    ∧ (extractImageResults r).2.1.Nodup
    ∧ dedupePreserve l = firstOccurrenceFilter (l.filter (fun x => ! (x == "")))
    ∧ dedupePreserve ["https://x/a.png", "https://x/b.png", "https://x/a.png"]
        = ["https://x/a.png", "https://x/b.png"]
    ∧ extractImageResults
        ⟨some [some ⟨some "https://x/a.png", none⟩],
         some ⟨MsgContent.other, [some "https://x/a.png"], [], [], []⟩, none, none⟩
      = (["https://x/a.png"], [], none) :=
  ⟨(extractImageResults_nodup r).1, (extractImageResults_nodup r).2,
   dedupePreserve_eq_firstOcc l, by decide, by decide⟩

/-- C7: the parser returns an error exactly when both result lists are empty
after all extraction steps; whenever it errs both returned lists are empty
(the only error of this total embedding being the no-valid-image message),
and whenever at least one image survives no error is returned. -/
theorem C7_error_iff_both_empty (r : RespData) :
    ((extractImageResults r).2.2.isSome ↔
      (extractImageResults r).1 = [] ∧ (extractImageResults r).2.1 = [])
    ∧ ((extractImageResults r).2.2 = none
        ∨ extractImageResults r = ([], [], some noValidImageMsg)) := by
  simp only [extractImageResults]
  split
  case isTrue h => simp
  case isFalse h =>
    refine ⟨⟨fun hs => by simp at hs, fun hcon => ?_⟩, Or.inl rfl⟩
    obtain ⟨h1, h2⟩ := hcon
    dsimp only at h1 h2
    exact absurd (by simp [h1, h2]) h

/-! ## Lemmas about delivery capping -/

theorem addUrlComponents_eq (maxImages : Nat) (us : List String) :
    ∀ count, addUrlComponents maxImages us count
      = ((us.take (maxImages - count)).map ImgComponent.fromURL,
         count + min (maxImages - count) us.length) := by
  induction us with
  | nil => intro count; simp [addUrlComponents]
  | cons u us ih =>
    intro count
    by_cases h : maxImages ≤ count
    · have h0 : maxImages - count = 0 := by omega
      simp [addUrlComponents, h, h0]
    · have h1 : maxImages - count = (maxImages - (count + 1)) + 1 := by omega
      simp only [addUrlComponents]
      rw [if_neg h, ih (count + 1), h1]
      simp [List.take_succ_cons]
      omega

theorem addPathComponents_eq (maxImages : Nat) (prepare : String → String)
    (ps : List String) :
    ∀ count, addPathComponents maxImages prepare ps count
      = ((ps.take (maxImages - count)).map (fun p => ImgComponent.fromFileSystem (prepare p)),
         count + min (maxImages - count) ps.length) := by
  induction ps with
  | nil => intro count; simp [addPathComponents]
  | cons p ps ih =>
    intro count
    by_cases h : maxImages ≤ count
    · have h0 : maxImages - count = 0 := by omega
      simp [addPathComponents, h, h0]
    · have h1 : maxImages - count = (maxImages - (count + 1)) + 1 := by omega
      simp only [addPathComponents]
      rw [if_neg h, ih (count + 1), h1]
      simp [List.take_succ_cons]
      omega

/-- C8: the delivered components are all the remote URLs (capped at the
configured maximum) followed by a prefix of the local paths filling the
remaining slots, so exactly `min maxImages (|urls| + |paths|)` images are
delivered, remote URLs first, overflow truncated. -/
theorem C8_delivery_cap (maxImages : Nat) (prepare : String → String)
    (image_urls image_paths : List String) :
    deliveryComponents maxImages prepare image_urls image_paths
      = (image_urls.take maxImages).map ImgComponent.fromURL
        ++ (image_paths.take (maxImages - image_urls.length)).map
            (fun p => ImgComponent.fromFileSystem (prepare p))
    ∧ (deliveryComponents maxImages prepare image_urls image_paths).length
      = min maxImages (image_urls.length + image_paths.length) := by
  have hfst : deliveryComponents maxImages prepare image_urls image_paths
      = (image_urls.take maxImages).map ImgComponent.fromURL
        ++ (image_paths.take (maxImages - image_urls.length)).map
            (fun p => ImgComponent.fromFileSystem (prepare p)) := by
    simp only [deliveryComponents]
    rw [addUrlComponents_eq maxImages image_urls 0]
    dsimp only
    rw [addPathComponents_eq maxImages prepare image_paths]
    dsimp only
    have hc : maxImages - (0 + min (maxImages - 0) image_urls.length)
        = maxImages - image_urls.length := by omega
    rw [hc, Nat.sub_zero]
  refine ⟨hfst, ?_⟩
  rw [hfst]
  simp only [List.length_append, List.length_map, List.length_take]
  omega

/-- C10: when the resolver yields several images, the core edit operation
depends only on the first: dropping the extra images does not change the
result, and two API clients agreeing on the first image produce the same
result — the remaining images are never sent upstream and never influence
the outcome. -/
theorem C10_first_image_only
    (api api2 : String → List String × List String × Option String)
    (save : String → Option String) (x : String) (rest : List String)
    (extracted : List String × Option String)
    (h : api x = api2 x) :
    generateImageEditCore true api save (some (x :: rest)) none extracted
      = generateImageEditCore true api save (some [x]) none extracted
    ∧ generateImageEditCore true api save (some (x :: rest)) none extracted
      = generateImageEditCore true api2 save (some (x :: rest)) none extracted := by
  constructor
  · rfl
  · simp [generateImageEditCore, coreWithImages, h]

/-- Witness for C10 with two prefetched images: the second is ignored. -/
theorem C10_first_image_only_witness :
    generateImageEditCore true (fun _ => (["https://x/a.png"], [], none))
        (fun p => some p) (some ["i1", "i2"]) none ([], none)
      = generateImageEditCore true (fun _ => (["https://x/a.png"], [], none))
        (fun p => some p) (some ["i1"]) none ([], none) :=
  (C10_first_image_only (fun _ => (["https://x/a.png"], [], none))
    (fun _ => (["https://x/a.png"], [], none)) (fun p => some p) "i1" ["i2"]
    ([], none) rfl).1

end GrokImageEdit
